import Mathlib

/-!
# cf-watcher: ingress reconciliation

A shallow embedding of the three Go source files of `1704mori/cf-watcher`
(`cloudflare/api.go`, `docker/events.go`, `main.go`) together with theorems
about the ingress list the program publishes.

Conventions of the embedding

* Go `string` is Lean `String`.  The code only concatenates strings, compares
  them for equality and cuts them at the ASCII characters `/` and `.`, so
  working on characters instead of bytes changes nothing.
* A Go `map[string]T` is an association list; the order of the list is the
  order in which a `range` loop visits the map.  A nil map and an empty map
  are both `[]`.
* A Go pointer `*T` that is only tested for nil and dereferenced is
  `Option T`.
* Calls to the Docker daemon and to the Cloudflare API are answered by a
  `World` value; every function that performs such calls returns the list of
  calls it made, in order, next to its result.
* A Go run-time panic (failed type assertion, nil dereference) is the
  `abort` outcome.
-/

namespace CfWatcher

/-! ## cloudflare/api.go : data -/

/-- A JSON value as stored in `map[string]interface{}`.  The program never
looks inside the values it fetched; nested values are kept as raw text. -/
inductive JValue where
  | str (s : String)
  | bool (b : Bool)
  | num (n : Int)
  | null
  | raw (text : String)
  deriving DecidableEq, Repr

/-- Go `type IngressRule struct`. -/
structure IngressRule where
  Service : String
  Hostname : String
  OriginRequest : List (String × JValue)
  deriving DecidableEq, Repr

/-- Go `type TunnelConfig struct`; `WarpRouting` is the `Enabled` flag of the
anonymous `warp-routing` struct. -/
structure TunnelConfig where
  Ingress : List IngressRule
  WarpRouting : Bool
  deriving DecidableEq, Repr

/-- One request sent to an external collaborator. -/
inductive Call where
  | inspect (containerID : String)
  | containerList
  | fetch (endpoint : String)
  | put (endpoint : String) (config : TunnelConfig)
  deriving DecidableEq, Repr

/-- The call is a `GET` of the tunnel configuration. -/
def Call.isFetch : Call → Bool
  | .fetch _ => true
  | _ => false

/-- The call is a `PUT` of a tunnel configuration. -/
def Call.isPut : Call → Bool
  | .put _ _ => true
  | _ => false

/-! ## docker/events.go : data -/

/-- Go `type Rule struct` (`Type_` is the Go field `Type`, a reserved word
here). -/
structure Rule where
  Subdomain : String
  Domain : String
  EnableSocks5 : Option Bool
  Path : Option String
  Type_ : String
  Host : String
  Port : String
  deriving DecidableEq, Repr

/-- Go `type Labels struct`. -/
structure Labels where
  Enabled : Bool
  CFNetwork : String
  Rules : Rule
  deriving DecidableEq, Repr

/-- Go `type Container struct`. -/
structure Container where
  Name : String
  IPAddress : String
  Labels : Labels
  deriving DecidableEq, Repr

/-- The fields of Docker's `types.ContainerJSON` that the program reads:
`Name`, `Config.Labels`, `NetworkSettings.Networks` (its keys, in range
order) and `NetworkSettings.IPAddress`. -/
structure ContainerJSON where
  Name : String
  Labels : List (String × String)
  Networks : List String
  IPAddress : String
  deriving DecidableEq, Repr

/-- Docker's `events.Message`, the fields `handleEvent` reads (`Type_` is the
Go field `Type`, a reserved word here). -/
structure Message where
  Type_ : String
  Action : String
  ID : String
  deriving DecidableEq, Repr

/-- The answers of the external collaborators and the process environment.
`inspect` answers `ContainerInspect` (`none` is an error), `containerList`
answers `ContainerList` with the image names (`none` is an error), `fetch` is
the configuration a `GET` returns (`none` is any failure of
`FetchTunnelConfig`), `putOK` says whether a `PUT` is answered with status
200. -/
structure World where
  inspect : String → Option ContainerJSON
  containerList : Option (List String)
  fetch : Option TunnelConfig
  putOK : Bool
  accountID : String
  tunnelID : String

/-- Outcome of a Go function returning `(T, error)` that may also panic. -/
inductive Res (α : Type) where
  | ok (a : α)
  | error (msg : String)
  | abort (msg : String)
  deriving DecidableEq, Repr

/-! ## Go standard library -/

/-- Go `strings.HasPrefix`. -/
def hasPrefix (s pre : String) : Bool :=
  pre.data.isPrefixOf s.data

/-- Go `strings.TrimPrefix`: removes one leading occurrence of `pre`. -/
def trimPrefix (s pre : String) : String :=
  if hasPrefix s pre then String.mk (s.data.drop pre.data.length) else s

/-- Go `strings.Contains`. -/
def containsStr (s sub : String) : Bool :=
  s.data.tails.any (fun t => sub.data.isPrefixOf t)

/-- Splitting at a separator character, with the piece being read in `cur`
(reversed). -/
def splitAux (sep : Char) : List Char → List Char → List String
  | [], cur => [String.mk cur.reverse]
  | c :: cs, cur =>
    if c = sep then String.mk cur.reverse :: splitAux sep cs []
    else splitAux sep cs (c :: cur)

/-- Go `strings.Split(s, ".")`. -/
def splitDot (s : String) : List String :=
  splitAux '.' s.data []

/-! ## cloudflare/api.go : CreateRoute -/

/-- Go `FetchTunnelConfig`: one `GET`; `none` stands for the returned error. -/
def FetchTunnelConfig (w : World) (endpoint : String) :
    List Call × Option TunnelConfig :=
  ([Call.fetch endpoint], w.fetch)

/-- The `for _, ingress := range ...Ingress` loop of `CreateRoute`
(api.go 157-167) with its two loop variables `catchAllRule` and
`validIngress`; `none` is the early `return nil` taken when a rule already
has the hostname. -/
def CreateRoute.scan (hostname : String) :
    List IngressRule → IngressRule → List IngressRule →
      Option (IngressRule × List IngressRule)
  | [], catchAllRule, validIngress => some (catchAllRule, validIngress)
  | ingress :: rest, catchAllRule, validIngress =>
    if ingress.Hostname = "" then
      CreateRoute.scan hostname rest ingress validIngress
    else if ingress.Hostname = hostname then
      none
    else
      CreateRoute.scan hostname rest catchAllRule (validIngress ++ [ingress])

/-- The default catch-all of api.go 170-174, put in place when the rule kept
by the loop has an empty service. -/
def CreateRoute.resolveCatchAll (catchAllRule : IngressRule) : IngressRule :=
  if catchAllRule.Service = "" then
    { Service := "http_status:404", Hostname := "", OriginRequest := [] }
  else catchAllRule

/-- The service URL of api.go 177-184. -/
def CreateRoute.serviceURL (host port : String) (path : Option String) : String :=
  let serviceURL := "http://" ++ host ++ ":" ++ port
  match path with
  | some p => if p ≠ "" then serviceURL ++ "/" ++ trimPrefix p "/" else serviceURL
  | none => serviceURL

/-- The `originRequest` map of api.go 187-190. -/
def CreateRoute.originRequest (socks5 : Option Bool) : List (String × JValue) :=
  match socks5 with
  | some _ => [("proxyType", JValue.str "socks")]
  | none => []

/-- What a call of `CreateRoute` ends in. -/
inductive RouteResult where
  | fetchFailed
  | alreadyExists
  | published (payload : TunnelConfig) (ok : Bool)
  deriving DecidableEq, Repr

/-- Go `CreateRoute`.  The result lists the calls made; `published p ok`
means that the payload `p` was sent with `PUT` and `ok` tells whether the
answer had status 200 (`nil` is returned) or not (an error is returned, as
when the request could not be performed). -/
def CreateRoute (w : World) (subdomain domain host port : String)
    (path : Option String) (socks5 : Option Bool) (endpoint : String) :
    List Call × RouteResult :=
  match FetchTunnelConfig w endpoint with
  | (calls, none) => (calls, RouteResult.fetchFailed)
  | (calls, some tunnelConfig) =>
    let hostname := subdomain ++ "." ++ domain
    match CreateRoute.scan hostname tunnelConfig.Ingress
        { Service := "", Hostname := "", OriginRequest := [] } [] with
    | none => (calls, RouteResult.alreadyExists)
    | some (catchAllRule0, validIngress) =>
      let catchAllRule := CreateRoute.resolveCatchAll catchAllRule0
      let serviceURL := CreateRoute.serviceURL host port path
      let originRequest := CreateRoute.originRequest socks5
      let newIngress : IngressRule :=
        { Service := serviceURL, Hostname := hostname, OriginRequest := originRequest }
      let payload : TunnelConfig :=
        { Ingress := (validIngress ++ [newIngress]) ++ [catchAllRule],
          WarpRouting := tunnelConfig.WarpRouting }
      (calls ++ [Call.put endpoint payload], RouteResult.published payload w.putOK)

/-! ## docker/events.go -/

/-- The dynamic content of an `interface{}` value: the nil interface (what
indexing a `map[string]interface{}` at a missing key gives), a Go `string`,
a `*string` or a `*bool`. -/
inductive Dyn where
  | nil
  | str (s : String)
  | strPtr (p : Option String)
  | boolPtr (p : Option Bool)
  deriving DecidableEq, Repr

/-- The unchecked type assertion `x.(string)`: it panics unless the dynamic
type is `string`. -/
def Dyn.assertString : Dyn → Res String
  | .str s => .ok s
  | .nil => .abort "interface conversion: interface \x7b\x7d is nil, not string"
  | .strPtr _ => .abort "interface conversion: interface \x7b\x7d is *string, not string"
  | .boolPtr _ => .abort "interface conversion: interface \x7b\x7d is *bool, not string"

/-- The unchecked type assertion `x.(*string)`. -/
def Dyn.assertStringPtr : Dyn → Res (Option String)
  | .strPtr p => .ok p
  | .nil => .abort "interface conversion: interface \x7b\x7d is nil, not *string"
  | .str _ => .abort "interface conversion: interface \x7b\x7d is string, not *string"
  | .boolPtr _ => .abort "interface conversion: interface \x7b\x7d is *bool, not *string"

/-- The unchecked type assertion `x.(*bool)`. -/
def Dyn.assertBoolPtr : Dyn → Res (Option Bool)
  | .boolPtr p => .ok p
  | .nil => .abort "interface conversion: interface \x7b\x7d is nil, not *bool"
  | .str _ => .abort "interface conversion: interface \x7b\x7d is string, not *bool"
  | .strPtr _ => .abort "interface conversion: interface \x7b\x7d is *string, not *bool"

/-- Sequencing of steps that may return an error or panic. -/
def Res.bind {α β : Type} (r : Res α) (f : α → Res β) : Res β :=
  match r with
  | .ok a => f a
  | .error msg => .error msg
  | .abort msg => .abort msg

/-- Go map assignment `m[k] = v`. -/
def mapSet (m : List (String × Dyn)) (k : String) (v : Dyn) : List (String × Dyn) :=
  (k, v) :: m.filter (fun kv => kv.1 ≠ k)

/-- Go map indexing `m[k]`: the zero value (nil interface) when the key is
missing. -/
def mapGet (m : List (String × Dyn)) (k : String) : Dyn :=
  (m.lookup k).getD Dyn.nil

/-- Go `findCFNetwork`: for every network of the container (in range order)
all containers are listed, and the network is returned as soon as a listed
image contains `cloudflared`. -/
def findCFNetwork (w : World) : List String → List Call × String
  | [] => ([], "")
  | networkName :: rest =>
    match w.containerList with
    | none =>
      let r := findCFNetwork w rest
      (Call.containerList :: r.1, r.2)
    | some containers =>
      if containers.any (fun image => containsStr image "cloudflared") then
        ([Call.containerList], networkName)
      else
        let r := findCFNetwork w rest
        (Call.containerList :: r.1, r.2)

/-- The loop of events.go 124-133 filling `ruleData` from the labels. -/
def parseLabels.ruleData (labels : List (String × String)) : List (String × Dyn) :=
  labels.foldl
    (fun ruleData kv =>
      if hasPrefix kv.1 "cf_watcher.rules" then
        let parts := splitDot kv.1
        if parts.length > 2 then
          mapSet ruleData (parts.getD 2 "") (Dyn.str kv.2)
        else ruleData
      else ruleData)
    []

/-- Lines 135-157 of events.go: the rule is built from `ruleData` with
unchecked type assertions, the fields in the order of the struct literal. -/
def parseLabels.build (cfEnabled : Bool) (cfNetwork : String)
    (ruleData : List (String × Dyn)) : Res Labels :=
  (mapGet ruleData "subdomain").assertString.bind fun subdomain =>
  (mapGet ruleData "domain").assertString.bind fun domain =>
  (mapGet ruleData "type").assertString.bind fun type_ =>
  (mapGet ruleData "host").assertString.bind fun host =>
  (mapGet ruleData "port").assertString.bind fun port =>
  (match ruleData.lookup "path" with
    | some path => path.assertStringPtr
    | none => Res.ok none).bind fun path =>
  (match ruleData.lookup "socks5" with
    | some socks => socks.assertBoolPtr
    | none => Res.ok none).bind fun socks5 =>
  Res.ok
    { Enabled := cfEnabled
      CFNetwork := cfNetwork
      Rules :=
        { Subdomain := subdomain, Domain := domain, EnableSocks5 := socks5,
          Path := path, Type_ := type_, Host := host, Port := port } }

/-- Go `parseLabels`. -/
def parseLabels (w : World) (containerJSON : ContainerJSON) : List Call × Res Labels :=
  let labels := containerJSON.Labels
  let networks := containerJSON.Networks
  let cfEnabled : Bool :=
    match labels.lookup "cf_watcher.enabled" with
    | some enabled =>
      if enabled = "true" then true else if enabled = "false" then false else false
    | none => false
  if !cfEnabled then
    ([], Res.error ("cf_watcher is not enabled for container " ++ containerJSON.Name))
  else
    match labels.lookup "cf_watcher.cf_network" with
    | some network =>
      ([], parseLabels.build cfEnabled network (parseLabels.ruleData labels))
    | none =>
      let r := findCFNetwork w networks
      if r.2 = "" then
        (r.1, Res.error
          ("cf_watcher.cf_network is required but could not be determined automatically, container: "
            ++ containerJSON.Name))
      else
        (r.1, parseLabels.build cfEnabled r.2 (parseLabels.ruleData labels))

/-- Go `ParseContainerDetails`; an `error` result is the Go return
`nil, err`. -/
def ParseContainerDetails (w : World) (containerID : String) : List Call × Res Container :=
  match w.inspect containerID with
  | none =>
    ([Call.inspect containerID],
      Res.error ("could not inspect container " ++ containerID))
  | some containerJSON =>
    let r := parseLabels w containerJSON
    (Call.inspect containerID :: r.1,
      match r.2 with
      | .error msg => Res.error ("error parsing labels: " ++ msg)
      | .abort msg => Res.abort msg
      | .ok labels =>
        Res.ok
          { Name := containerJSON.Name
            IPAddress := containerJSON.IPAddress
            Labels := labels })

/-! ## main.go -/

/-- What handling one event did: the calls made, and whether the process
panicked. -/
structure Run where
  calls : List Call
  crashed : Bool
  deriving DecidableEq, Repr

/-- The `configEndpoint` of main.go 40-44. -/
def configEndpoint (w : World) : String :=
  "https://api.cloudflare.com/client/v4/accounts/" ++ w.accountID ++ "/cfd_tunnel/"
    ++ w.tunnelID ++ "/configurations"

/-- The `serviceURL` that `handleEvent` looks for among the fetched rules
(main.go 61-78). -/
def handleEvent.serviceURL (rules : Rule) : String :=
  if rules.Subdomain ≠ "" ∧ rules.Domain ≠ "" then
    let serviceURL := rules.Subdomain ++ "." ++ rules.Domain
    match rules.Path with
    | some path => serviceURL ++ path
    | none => serviceURL
  else if rules.Host ≠ "" ∧ rules.Port ≠ "" then
    "http://" ++ rules.Host ++ ":" ++ rules.Port
  else ""

/-- Lines 40-110 of main.go: what `handleEvent` does with a container whose
details were parsed (`containerDetails != nil`). -/
def handleEvent.reconcile (w : World) (containerDetails : Container) : Run :=
  if containerDetails.Labels.Enabled then
    match FetchTunnelConfig w (configEndpoint w) with
    | (calls, none) =>
      -- `tunnelConfig` is nil and `tunnelConfig.Result` is read next
      { calls := calls, crashed := true }
    | (calls, some tunnelConfig) =>
      let serviceURL := handleEvent.serviceURL containerDetails.Labels.Rules
      let foundIngress := tunnelConfig.Ingress.any (fun ingress => ingress.Service = serviceURL)
      if !foundIngress then
        let r := CreateRoute w
          containerDetails.Labels.Rules.Subdomain
          containerDetails.Labels.Rules.Domain
          containerDetails.Labels.Rules.Host
          containerDetails.Labels.Rules.Port
          containerDetails.Labels.Rules.Path
          containerDetails.Labels.Rules.EnableSocks5
          (configEndpoint w)
        { calls := calls ++ r.1, crashed := false }
      else
        { calls := calls, crashed := false }
  else
    { calls := [], crashed := false }

/-- Go `handleEvent`. -/
def handleEvent (w : World) (event : Message) : Run :=
  if event.Type_ = "container" ∧ event.Action = "start" then
    match ParseContainerDetails w event.ID with
    | (calls, .abort _) => { calls := calls, crashed := true }
    | (calls, .error _) => { calls := calls, crashed := false }
    | (calls, .ok containerDetails) =>
      let r := handleEvent.reconcile w containerDetails
      { calls := calls ++ r.calls, crashed := r.crashed }
  else
    { calls := [], crashed := false }

/-- The remote side after a sequence of calls.  The tunnel configuration is
replaced as a whole by an accepted `PUT` and is changed by nothing else (no
other writer is considered); a refused `PUT` leaves it as it was. -/
def World.afterCalls (w : World) : List Call → World
  | [] => w
  | Call.put _ config :: rest =>
    (if w.putOK then { w with fetch := some config } else w).afterCalls rest
  | _ :: rest => w.afterCalls rest

/-! ## Sample inputs -/

/-- The default catch-all rule. -/
def rule404 : IngressRule :=
  { Service := "http_status:404", Hostname := "", OriginRequest := [] }

/-- Labels of the end-to-end scenario, with a `type` label added. -/
def sampleLabels : List (String × String) :=
  [("cf_watcher.enabled", "true"), ("cf_watcher.cf_network", "netA"),
   ("cf_watcher.rules.subdomain", "app"), ("cf_watcher.rules.domain", "example.com"),
   ("cf_watcher.rules.type", "http"), ("cf_watcher.rules.host", "10.0.0.5"),
   ("cf_watcher.rules.port", "8080")]

/-- A world with one container `c1` carrying `labels` and the remote ingress
list `ingress`. -/
def sampleWorld (labels : List (String × String)) (ingress : List IngressRule) : World :=
  { inspect := fun id =>
      if id = "c1" then
        some { Name := "/web", Labels := labels, Networks := ["netA"], IPAddress := "172.17.0.2" }
      else none
    containerList := some ["cloudflare/cloudflared:latest"]
    fetch := some { Ingress := ingress, WarpRouting := false }
    putOK := true
    accountID := "acc"
    tunnelID := "tun" }

/-- A container-start event for `c1`. -/
def startEvent : Message :=
  { Type_ := "container", Action := "start", ID := "c1" }

/-- A fetched ingress list with three empty-hostname rules, in first, middle
and last position. -/
def mixedIngress : List IngressRule :=
  [{ Service := "http_status:503", Hostname := "", OriginRequest := [] },
   { Service := "http://10.0.0.9:80", Hostname := "old.example.com", OriginRequest := [] },
   { Service := "http_status:404", Hostname := "", OriginRequest := [] },
   { Service := "http://10.0.0.7:3000", Hostname := "api.example.com",
     OriginRequest := [("proxyType", JValue.str "socks")] },
   { Service := "http_status:418", Hostname := "", OriginRequest := [] }]

/-- The labels of the end-to-end scenario as the specification gives them: no
`cf_watcher.rules.type` label. -/
def labelsWithoutType : List (String × String) :=
  [("cf_watcher.enabled", "true"), ("cf_watcher.cf_network", "netA"),
   ("cf_watcher.rules.subdomain", "app"), ("cf_watcher.rules.domain", "example.com"),
   ("cf_watcher.rules.host", "10.0.0.5"), ("cf_watcher.rules.port", "8080")]

/-- All five required rule labels and a `path` label. -/
def labelsWithPath : List (String × String) :=
  sampleLabels ++ [("cf_watcher.rules.path", "/foo")]

/-- All five required rule labels, with an empty subdomain and an empty
host: neither addressing mode is fully populated. -/
def labelsNoAddress : List (String × String) :=
  [("cf_watcher.enabled", "true"), ("cf_watcher.cf_network", "netA"),
   ("cf_watcher.rules.subdomain", ""), ("cf_watcher.rules.domain", "example.com"),
   ("cf_watcher.rules.type", "http"), ("cf_watcher.rules.host", ""),
   ("cf_watcher.rules.port", "8080")]

/-- Labels with the enablement label set to `false`. -/
def labelsDisabled : List (String × String) :=
  [("cf_watcher.enabled", "false"),
   ("cf_watcher.rules.subdomain", "app"), ("cf_watcher.rules.domain", "example.com"),
   ("cf_watcher.rules.type", "http"), ("cf_watcher.rules.host", "10.0.0.5"),
   ("cf_watcher.rules.port", "8080")]

/-- The container that `ParseContainerDetails` yields for `sampleLabels`. -/
def sampleContainer : Container :=
  { Name := "/web"
    IPAddress := "172.17.0.2"
    Labels :=
      { Enabled := true
        CFNetwork := "netA"
        Rules :=
          { Subdomain := "app", Domain := "example.com", EnableSocks5 := none, Path := none,
            Type_ := "http", Host := "10.0.0.5", Port := "8080" } } }

/-- The container that `ParseContainerDetails` yields for `labelsNoAddress`. -/
def noAddressContainer : Container :=
  { Name := "/web"
    IPAddress := "172.17.0.2"
    Labels :=
      { Enabled := true
        CFNetwork := "netA"
        Rules :=
          { Subdomain := "", Domain := "example.com", EnableSocks5 := none, Path := none,
            Type_ := "http", Host := "", Port := "8080" } } }

/-- The endpoint of the sample worlds. -/
def sampleEndpoint : String :=
  "https://api.cloudflare.com/client/v4/accounts/acc/cfd_tunnel/tun/configurations"

/-! ## Facts about strings -/

theorem dotted_ne_empty (a b : String) : a ++ "." ++ b ≠ "" := by
  intro h
  have h2 := congrArg String.length h
  simp only [String.length_append] at h2
  have h3 : ".".length = 1 := by decide
  have h4 : "".length = 0 := by decide
  omega

/-! ## The loop of CreateRoute -/

theorem getLast?_getD_cons {α : Type} (x : α) (l : List α) (c : α) :
    ((x :: l).getLast?).getD c = (l.getLast?).getD x := by
  cases l with
  | nil => simp
  | cons y ys =>
    rw [List.getLast?_cons_cons, List.getLast?_eq_getLast _ (List.cons_ne_nil y ys)]
    simp

theorem scan_no_match (hostname : String) (L : List IngressRule)
    (hno : ∀ r ∈ L, r.Hostname ≠ hostname) (c : IngressRule) (v : List IngressRule) :
    CreateRoute.scan hostname L c v =
      some (((L.filter (fun r => r.Hostname = "")).getLast?).getD c,
        v ++ L.filter (fun r => r.Hostname ≠ "")) := by
  induction L generalizing c v with
  | nil => simp [CreateRoute.scan]
  | cons r rs ih =>
    have hr : r.Hostname ≠ hostname := hno r (List.mem_cons_self _ _)
    have hrs : ∀ x ∈ rs, x.Hostname ≠ hostname :=
      fun x hx => hno x (List.mem_cons_of_mem _ hx)
    by_cases he : r.Hostname = ""
    · rw [CreateRoute.scan, if_pos he, ih hrs]
      simp only [List.filter_cons, he, decide_True, if_true, ne_eq, not_true_eq_false,
        decide_False, Bool.false_eq_true, if_false]
      rw [getLast?_getD_cons]
    · rw [CreateRoute.scan, if_neg he, if_neg hr, ih hrs]
      simp [List.filter_cons, he]

theorem scan_match (hostname : String) (hne : hostname ≠ "") (L : List IngressRule)
    (hex : ∃ r ∈ L, r.Hostname = hostname) (c : IngressRule) (v : List IngressRule) :
    CreateRoute.scan hostname L c v = none := by
  induction L generalizing c v with
  | nil => simp at hex
  | cons r rs ih =>
    by_cases he : r.Hostname = ""
    · rw [CreateRoute.scan, if_pos he]
      apply ih
      obtain ⟨x, hx, hxe⟩ := hex
      rcases List.mem_cons.mp hx with h | h
      · subst h; exact absurd (he.symm.trans hxe).symm hne
      · exact ⟨x, h, hxe⟩
    · rw [CreateRoute.scan, if_neg he]
      by_cases hr : r.Hostname = hostname
      · rw [if_pos hr]
      · rw [if_neg hr]
        apply ih
        obtain ⟨x, hx, hxe⟩ := hex
        rcases List.mem_cons.mp hx with h | h
        · subst h; exact absurd hxe hr
        · exact ⟨x, h, hxe⟩

theorem resolveCatchAll_hostname (c : IngressRule) (h : c.Hostname = "") :
    (CreateRoute.resolveCatchAll c).Hostname = "" := by
  unfold CreateRoute.resolveCatchAll
  split <;> simp [h]

theorem lastCatchAll_hostname (L : List IngressRule) (c : IngressRule) (h : c.Hostname = "") :
    (((L.filter (fun r => r.Hostname = "")).getLast?).getD c).Hostname = "" := by
  cases hl : (L.filter (fun r => decide (r.Hostname = ""))).getLast? with
  | none => simpa using h
  | some x =>
    have hm := List.mem_of_getLast?_eq_some hl
    simpa using (List.mem_filter.mp hm).2

theorem filter_empty_hostname (init : List IngressRule) (c : IngressRule)
    (hc : c.Hostname = "") (hi : ∀ r ∈ init, r.Hostname ≠ "") :
    (init ++ [c]).filter (fun r => r.Hostname = "") = [c] := by
  have h1 : init.filter (fun r => decide (r.Hostname = "")) = [] := by
    rw [List.filter_eq_nil_iff]
    intro a ha
    simpa using hi a ha
  simp [List.filter_append, h1, List.filter_cons, hc]

/-- The payload `CreateRoute` sends when no fetched rule has the hostname. -/
theorem CreateRoute_publishes (w : World) (cfg : TunnelConfig)
    (subdomain domain host port : String) (path : Option String) (socks5 : Option Bool)
    (endpoint : String) (hf : w.fetch = some cfg)
    (hno : ∀ r ∈ cfg.Ingress, r.Hostname ≠ subdomain ++ "." ++ domain) :
    CreateRoute w subdomain domain host port path socks5 endpoint =
      ([Call.fetch endpoint, Call.put endpoint
          { Ingress := (cfg.Ingress.filter (fun r => r.Hostname ≠ "") ++
              [{ Service := CreateRoute.serviceURL host port path,
                 Hostname := subdomain ++ "." ++ domain,
                 OriginRequest := CreateRoute.originRequest socks5 }]) ++
              [CreateRoute.resolveCatchAll
                (((cfg.Ingress.filter (fun r => r.Hostname = "")).getLast?).getD
                  { Service := "", Hostname := "", OriginRequest := [] })],
            WarpRouting := cfg.WarpRouting }],
       RouteResult.published
          { Ingress := (cfg.Ingress.filter (fun r => r.Hostname ≠ "") ++
              [{ Service := CreateRoute.serviceURL host port path,
                 Hostname := subdomain ++ "." ++ domain,
                 OriginRequest := CreateRoute.originRequest socks5 }]) ++
              [CreateRoute.resolveCatchAll
                (((cfg.Ingress.filter (fun r => r.Hostname = "")).getLast?).getD
                  { Service := "", Hostname := "", OriginRequest := [] })],
            WarpRouting := cfg.WarpRouting }
          w.putOK) := by
  simp only [CreateRoute, FetchTunnelConfig, hf, scan_no_match _ _ hno]
  simp

theorem CreateRoute_exists (w : World) (cfg : TunnelConfig)
    (subdomain domain host port : String) (path : Option String) (socks5 : Option Bool)
    (endpoint : String) (hf : w.fetch = some cfg)
    (hex : ∃ r ∈ cfg.Ingress, r.Hostname = subdomain ++ "." ++ domain) :
    CreateRoute w subdomain domain host port path socks5 endpoint =
      ([Call.fetch endpoint], RouteResult.alreadyExists) := by
  simp only [CreateRoute, FetchTunnelConfig, hf,
    scan_match _ (dotted_ne_empty subdomain domain) _ hex]

/-! ## Claims about CreateRoute -/

/-- C1: when the fetch succeeds and no fetched rule has the hostname
`subdomain.domain`, `CreateRoute` sends one `PUT` whose ingress list ends in a
rule with an empty hostname, and no other rule of that list has an empty
hostname: exactly one catch-all, in last position, whatever number of
empty-hostname rules the fetched list had and wherever they stood. -/
theorem C1_single_trailing_catch_all (w : World) (cfg : TunnelConfig)
    (subdomain domain host port : String) (path : Option String) (socks5 : Option Bool)
    (endpoint : String) (hf : w.fetch = some cfg)
    (hno : ∀ r ∈ cfg.Ingress, r.Hostname ≠ subdomain ++ "." ++ domain) :
    ∃ payload init c,
      CreateRoute w subdomain domain host port path socks5 endpoint =
        ([Call.fetch endpoint, Call.put endpoint payload],
          RouteResult.published payload w.putOK) ∧
      payload.Ingress = init ++ [c] ∧ c.Hostname = "" ∧
      (∀ r ∈ init, r.Hostname ≠ "") ∧
      (payload.Ingress.filter (fun r => r.Hostname = "")).length = 1 := by
  have hc := resolveCatchAll_hostname _
    (lastCatchAll_hostname cfg.Ingress
      { Service := "", Hostname := "", OriginRequest := [] } rfl)
  have hi : ∀ r ∈ cfg.Ingress.filter (fun r => r.Hostname ≠ "") ++
      [{ Service := CreateRoute.serviceURL host port path,
         Hostname := subdomain ++ "." ++ domain,
         OriginRequest := CreateRoute.originRequest socks5 }], r.Hostname ≠ "" := by
    intro r hr
    rcases List.mem_append.mp hr with h | h
    · simpa using (List.mem_filter.mp h).2
    · rw [List.mem_singleton] at h
      subst h
      exact dotted_ne_empty subdomain domain
  refine ⟨_, _, _, CreateRoute_publishes w cfg subdomain domain host port path socks5
    endpoint hf hno, rfl, hc, hi, ?_⟩
  rw [filter_empty_hostname _ _ hc hi]
  rfl


/-- Instance of C1 on a fetched list with three empty-hostname rules. -/
theorem C1_single_trailing_catch_all_witness :
    ((sampleWorld sampleLabels mixedIngress).fetch =
        some { Ingress := mixedIngress, WarpRouting := false } ∧
      ∀ r ∈ mixedIngress, r.Hostname ≠ "app" ++ "." ++ "example.com") ∧
    ∃ payload init c,
      CreateRoute (sampleWorld sampleLabels mixedIngress) "app" "example.com" "10.0.0.5" "8080"
          none none "https://cf/configurations" =
        ([Call.fetch "https://cf/configurations",
          Call.put "https://cf/configurations" payload],
          RouteResult.published payload (sampleWorld sampleLabels mixedIngress).putOK) ∧
      payload.Ingress = init ++ [c] ∧ c.Hostname = "" ∧
      (∀ r ∈ init, r.Hostname ≠ "") ∧
      (payload.Ingress.filter (fun r => r.Hostname = "")).length = 1 :=
  ⟨⟨rfl, by decide⟩,
    C1_single_trailing_catch_all (sampleWorld sampleLabels mixedIngress)
      { Ingress := mixedIngress, WarpRouting := false }
      "app" "example.com" "10.0.0.5" "8080" none none "https://cf/configurations"
      rfl (by decide)⟩

/-- C3: when the fetch succeeds and no fetched rule has the hostname
`subdomain.domain`, the ingress list `CreateRoute` sends is exactly the
fetched rules with a non-empty hostname, unchanged and in fetched order, then
the new rule (hostname `subdomain.domain`, service the computed service URL),
then the catch-all rule: the last fetched rule with an empty hostname, or the
default `http_status:404` rule when there is none or when its service is
empty. -/
theorem C3_published_list_shape (w : World) (cfg : TunnelConfig)
    (subdomain domain host port : String) (path : Option String) (socks5 : Option Bool)
    (endpoint : String) (hf : w.fetch = some cfg)
    (hno : ∀ r ∈ cfg.Ingress, r.Hostname ≠ subdomain ++ "." ++ domain) :
    ∃ payload newIngress catchAll,
      (CreateRoute w subdomain domain host port path socks5 endpoint).2 =
        RouteResult.published payload w.putOK ∧
      payload.Ingress =
        cfg.Ingress.filter (fun r => r.Hostname ≠ "") ++ [newIngress] ++ [catchAll] ∧
      newIngress.Hostname = subdomain ++ "." ++ domain ∧
      newIngress.Service = CreateRoute.serviceURL host port path ∧
      catchAll.Hostname = "" ∧
      catchAll =
        (match (cfg.Ingress.filter (fun r => r.Hostname = "")).getLast? with
          | some lastEmpty =>
            if lastEmpty.Service = "" then
              { Service := "http_status:404", Hostname := "", OriginRequest := [] }
            else lastEmpty
          | none => { Service := "http_status:404", Hostname := "", OriginRequest := [] }) := by
  rw [CreateRoute_publishes w cfg subdomain domain host port path socks5 endpoint hf hno]
  refine ⟨_,
    { Service := CreateRoute.serviceURL host port path,
      Hostname := subdomain ++ "." ++ domain,
      OriginRequest := CreateRoute.originRequest socks5 },
    _, rfl, rfl, rfl, rfl,
    resolveCatchAll_hostname _ (lastCatchAll_hostname _ _ rfl), ?_⟩
  cases (cfg.Ingress.filter (fun r => decide (r.Hostname = ""))).getLast? with
  | none => simp [CreateRoute.resolveCatchAll]
  | some lastEmpty => simp [CreateRoute.resolveCatchAll]

/-- Instance of C3 on a fetched list with two hostname rules, three
empty-hostname rules and a path. -/
theorem C3_published_list_shape_witness :
    ((sampleWorld sampleLabels mixedIngress).fetch =
        some { Ingress := mixedIngress, WarpRouting := false } ∧
      ∀ r ∈ mixedIngress, r.Hostname ≠ "app" ++ "." ++ "example.com") ∧
    ∃ payload newIngress catchAll,
      (CreateRoute (sampleWorld sampleLabels mixedIngress) "app" "example.com" "10.0.0.5"
          "8080" (some "/foo") none "https://cf/configurations").2 =
        RouteResult.published payload (sampleWorld sampleLabels mixedIngress).putOK ∧
      payload.Ingress =
        mixedIngress.filter (fun r => r.Hostname ≠ "") ++ [newIngress] ++ [catchAll] ∧
      newIngress.Hostname = "app" ++ "." ++ "example.com" ∧
      newIngress.Service = CreateRoute.serviceURL "10.0.0.5" "8080" (some "/foo") ∧
      catchAll.Hostname = "" ∧
      catchAll =
        (match (mixedIngress.filter (fun r => r.Hostname = "")).getLast? with
          | some lastEmpty =>
            if lastEmpty.Service = "" then
              { Service := "http_status:404", Hostname := "", OriginRequest := [] }
            else lastEmpty
          | none => { Service := "http_status:404", Hostname := "", OriginRequest := [] }) :=
  ⟨⟨rfl, by decide⟩,
    C3_published_list_shape (sampleWorld sampleLabels mixedIngress)
      { Ingress := mixedIngress, WarpRouting := false }
      "app" "example.com" "10.0.0.5" "8080" (some "/foo") none "https://cf/configurations"
      rfl (by decide)⟩

/-- C10, as stated, fails: with the fetched list `mixedIngress` (three
empty-hostname rules, none with the new hostname) the rule that ends the
published list is not the first empty-hostname rule of the fetched list. -/
theorem C10_first_catch_all_not_kept :
    1 < (mixedIngress.filter (fun r => r.Hostname = "")).length ∧
    (∀ r ∈ mixedIngress, r.Hostname ≠ "app" ++ "." ++ "example.com") ∧
    ∃ payload,
      (CreateRoute (sampleWorld sampleLabels mixedIngress) "app" "example.com" "10.0.0.5"
          "8080" none none "https://cf/configurations").2 =
        RouteResult.published payload true ∧
      payload.Ingress.getLast? ≠ mixedIngress.find? (fun r => r.Hostname = "") := by
  refine ⟨by decide, by decide, _, rfl, by decide⟩

/-- C10 amended: when the fetched list has more than one empty-hostname rule
and no rule with the hostname `subdomain.domain`, the rule that ends the
published list is the last empty-hostname rule of the fetched list (the
default `http_status:404` rule if that rule has an empty service), and every
rule before it in the published list has a non-empty hostname, so all other
empty-hostname rules are dropped. -/
theorem C10_last_catch_all_kept (w : World) (cfg : TunnelConfig)
    (subdomain domain host port : String) (path : Option String) (socks5 : Option Bool)
    (endpoint : String) (hf : w.fetch = some cfg)
    (hmany : 1 < (cfg.Ingress.filter (fun r => r.Hostname = "")).length)
    (hno : ∀ r ∈ cfg.Ingress, r.Hostname ≠ subdomain ++ "." ++ domain) :
    ∃ payload init lastEmpty,
      (CreateRoute w subdomain domain host port path socks5 endpoint).2 =
        RouteResult.published payload w.putOK ∧
      (cfg.Ingress.filter (fun r => r.Hostname = "")).getLast? = some lastEmpty ∧
      payload.Ingress = init ++
        [if lastEmpty.Service = "" then
            { Service := "http_status:404", Hostname := "", OriginRequest := [] }
          else lastEmpty] ∧
      (∀ r ∈ init, r.Hostname ≠ "") := by
  have hne : cfg.Ingress.filter (fun r => decide (r.Hostname = "")) ≠ [] := by
    intro h
    rw [h] at hmany
    simp at hmany
  rw [CreateRoute_publishes w cfg subdomain domain host port path socks5 endpoint hf hno]
  refine ⟨_, cfg.Ingress.filter (fun r => r.Hostname ≠ "") ++
      [{ Service := CreateRoute.serviceURL host port path,
         Hostname := subdomain ++ "." ++ domain,
         OriginRequest := CreateRoute.originRequest socks5 }],
    (cfg.Ingress.filter (fun r => decide (r.Hostname = ""))).getLast hne, rfl,
    List.getLast?_eq_getLast _ hne, ?_, ?_⟩
  · simp only [List.getLast?_eq_getLast _ hne, Option.getD_some,
      CreateRoute.resolveCatchAll]
  · intro r hr
    rcases List.mem_append.mp hr with h | h
    · simpa using (List.mem_filter.mp h).2
    · rw [List.mem_singleton] at h
      subst h
      exact dotted_ne_empty subdomain domain

/-- Instance of the amended C10 on a fetched list with three empty-hostname rules. -/
theorem C10_last_catch_all_kept_witness :
    ((sampleWorld sampleLabels mixedIngress).fetch =
        some { Ingress := mixedIngress, WarpRouting := false } ∧
      1 < (mixedIngress.filter (fun r => r.Hostname = "")).length ∧
      ∀ r ∈ mixedIngress, r.Hostname ≠ "app" ++ "." ++ "example.com") ∧
    ∃ payload init lastEmpty,
      (CreateRoute (sampleWorld sampleLabels mixedIngress) "app" "example.com" "10.0.0.5"
          "8080" none none "https://cf/configurations").2 =
        RouteResult.published payload (sampleWorld sampleLabels mixedIngress).putOK ∧
      (mixedIngress.filter (fun r => r.Hostname = "")).getLast? = some lastEmpty ∧
      payload.Ingress = init ++
        [if lastEmpty.Service = "" then
            { Service := "http_status:404", Hostname := "", OriginRequest := [] }
          else lastEmpty] ∧
      (∀ r ∈ init, r.Hostname ≠ "") :=
  ⟨⟨rfl, by decide, by decide⟩,
    C10_last_catch_all_kept (sampleWorld sampleLabels mixedIngress)
      { Ingress := mixedIngress, WarpRouting := false }
      "app" "example.com" "10.0.0.5" "8080" none none "https://cf/configurations"
      rfl (by decide) (by decide)⟩

/-- C5, as stated, fails at the empty path: `""` does not start with `/`, yet
the service URL built for `""` has no trailing slash while the one built for
`"/"` has. -/
theorem C5_empty_path_differs :
    hasPrefix "" "/" = false ∧
    CreateRoute.serviceURL "10.0.0.5" "8080" (some "") ≠
      CreateRoute.serviceURL "10.0.0.5" "8080" (some ("/" ++ "")) ∧
    CreateRoute.serviceURL "10.0.0.5" "8080" (some "") ≠
      "http://" ++ "10.0.0.5" ++ ":" ++ "8080" ++ "/" ++ "" := by
  decide

/-- C5 amended: for every host, port and every non-empty `p` that does not
start with `/`, the service URL built for path `p` equals the one built for
path `"/" ++ p`, and both are `http://host:port/p`. -/
theorem C5_path_leading_slash (host port p : String) (hp : p ≠ "")
    (hs : hasPrefix p "/" = false) :
    CreateRoute.serviceURL host port (some p) =
      CreateRoute.serviceURL host port (some ("/" ++ p)) ∧
    CreateRoute.serviceURL host port (some p) =
      "http://" ++ host ++ ":" ++ port ++ "/" ++ p := by
  have h1 : trimPrefix p "/" = p := by
    unfold trimPrefix
    rw [hs]
    rfl
  have h2 : hasPrefix ("/" ++ p) "/" = true := by
    simp [hasPrefix, String.data_append]
  have h3 : trimPrefix ("/" ++ p) "/" = p := by
    unfold trimPrefix
    rw [h2]
    simp [String.data_append]
  have h4 : "/" ++ p ≠ "" := by
    intro h
    have h5 := congrArg String.length h
    simp only [String.length_append] at h5
    have h6 : "/".length = 1 := by decide
    have h7 : "".length = 0 := by decide
    omega
  simp only [CreateRoute.serviceURL, hp, h4, h1, h3, ne_eq, not_false_eq_true, if_true,
    and_self]

/-- Instance of the amended C5 at the path foo. -/
theorem C5_path_leading_slash_witness :
    ("foo" ≠ "" ∧ hasPrefix "foo" "/" = false) ∧
    (CreateRoute.serviceURL "10.0.0.5" "8080" (some "foo") =
      CreateRoute.serviceURL "10.0.0.5" "8080" (some ("/" ++ "foo")) ∧
    CreateRoute.serviceURL "10.0.0.5" "8080" (some "foo") =
      "http://" ++ "10.0.0.5" ++ ":" ++ "8080" ++ "/" ++ "foo") :=
  ⟨⟨by decide, by decide⟩,
    C5_path_leading_slash "10.0.0.5" "8080" "foo" (by decide) (by decide)⟩

/-- C6 at the failing input: called with `socks5` pointing to `false`,
`CreateRoute` publishes a new rule whose origin options carry
`proxyType = "socks"`. -/
theorem C6_socks5_false_sets_proxy_type :
    CreateRoute (sampleWorld sampleLabels [rule404]) "app" "example.com" "10.0.0.5" "8080"
        none (some false) "https://cf/configurations" =
      ([Call.fetch "https://cf/configurations",
        Call.put "https://cf/configurations"
          { Ingress :=
              [{ Service := "http://10.0.0.5:8080", Hostname := "app.example.com",
                 OriginRequest := [("proxyType", JValue.str "socks")] },
               rule404],
            WarpRouting := false }],
       RouteResult.published
          { Ingress :=
              [{ Service := "http://10.0.0.5:8080", Hostname := "app.example.com",
                 OriginRequest := [("proxyType", JValue.str "socks")] },
               rule404],
            WarpRouting := false }
          true) := by
  decide

/-! ## Claims about parseLabels -/

/-- C4: when the label `cf_watcher.enabled` of the inspected container is
absent or differs from `"true"`, `parseLabels` returns its "not enabled" error
without any call (the network resolver is not invoked, and the error does not
depend on any rule label), `ParseContainerDetails` returns an error and no
container after the single inspect call, and `handleEvent` makes neither a
fetch nor a publish call and does not panic. -/
theorem C4_disabled_short_circuit (w : World) (event : Message) (cj : ContainerJSON)
    (hi : w.inspect event.ID = some cj)
    (hd : cj.Labels.lookup "cf_watcher.enabled" ≠ some "true") :
    parseLabels w cj =
      ([], Res.error ("cf_watcher is not enabled for container " ++ cj.Name)) ∧
    ParseContainerDetails w event.ID =
      ([Call.inspect event.ID],
        Res.error ("error parsing labels: " ++
          ("cf_watcher is not enabled for container " ++ cj.Name))) ∧
    (∀ c ∈ (handleEvent w event).calls, c.isFetch = false ∧ c.isPut = false) ∧
    (handleEvent w event).crashed = false := by
  have h1 : parseLabels w cj =
      ([], Res.error ("cf_watcher is not enabled for container " ++ cj.Name)) := by
    cases hl : cj.Labels.lookup "cf_watcher.enabled" with
    | none => simp [parseLabels, hl]
    | some e =>
      have he : e ≠ "true" := by
        intro h
        apply hd
        rw [hl, h]
      simp [parseLabels, hl, he]
  have h2 : ParseContainerDetails w event.ID =
      ([Call.inspect event.ID],
        Res.error ("error parsing labels: " ++
          ("cf_watcher is not enabled for container " ++ cj.Name))) := by
    simp only [ParseContainerDetails, hi, h1]
  refine ⟨h1, h2, ?_, ?_⟩
  · unfold handleEvent
    split
    · rw [h2]
      intro c hc
      simp only [List.mem_singleton] at hc
      subst hc
      exact ⟨rfl, rfl⟩
    · intro c hc
      simp at hc
  · unfold handleEvent
    split
    · rw [h2]
    · rfl

/-- Instance of C4 for a container labelled with enabled set to false. -/
theorem C4_disabled_short_circuit_witness :
    ((sampleWorld labelsDisabled [rule404]).inspect startEvent.ID =
        some { Name := "/web", Labels := labelsDisabled, Networks := ["netA"],
               IPAddress := "172.17.0.2" } ∧
      labelsDisabled.lookup "cf_watcher.enabled" ≠ some "true") ∧
    (parseLabels (sampleWorld labelsDisabled [rule404])
        { Name := "/web", Labels := labelsDisabled, Networks := ["netA"],
          IPAddress := "172.17.0.2" } =
      ([], Res.error ("cf_watcher is not enabled for container " ++ "/web")) ∧
    ParseContainerDetails (sampleWorld labelsDisabled [rule404]) startEvent.ID =
      ([Call.inspect startEvent.ID],
        Res.error ("error parsing labels: " ++
          ("cf_watcher is not enabled for container " ++ "/web"))) ∧
    (∀ c ∈ (handleEvent (sampleWorld labelsDisabled [rule404]) startEvent).calls,
      c.isFetch = false ∧ c.isPut = false) ∧
    (handleEvent (sampleWorld labelsDisabled [rule404]) startEvent).crashed = false) :=
  ⟨⟨by decide, by decide⟩,
    C4_disabled_short_circuit (sampleWorld labelsDisabled [rule404]) startEvent
      { Name := "/web", Labels := labelsDisabled, Networks := ["netA"],
        IPAddress := "172.17.0.2" }
      (by decide) (by decide)⟩

/-- C7 at the failing input: with the labels of the claim (enabled, network
and four rule labels, no `rules.type`), `parseLabels` does not return an
error: the unchecked assertion `ruleData["type"].(string)` panics, and
`handleEvent` crashes after the inspect call. -/
theorem C7_missing_type_panics :
    parseLabels (sampleWorld labelsWithoutType [rule404])
        { Name := "/web", Labels := labelsWithoutType, Networks := ["netA"],
          IPAddress := "172.17.0.2" } =
      ([], Res.abort "interface conversion: interface \x7b\x7d is nil, not string") ∧
    handleEvent (sampleWorld labelsWithoutType [rule404]) startEvent =
      { calls := [Call.inspect "c1"], crashed := true } := by
  decide

/-- C8 at the failing input: with all five required rule labels and
`cf_watcher.rules.path = "/foo"`, `parseLabels` does not succeed: the value
stored in `ruleData` is a string, the assertion `path.(*string)` panics, and
`handleEvent` crashes after the inspect call. -/
theorem C8_path_label_panics :
    parseLabels (sampleWorld labelsWithPath [rule404])
        { Name := "/web", Labels := labelsWithPath, Networks := ["netA"],
          IPAddress := "172.17.0.2" } =
      ([], Res.abort "interface conversion: interface \x7b\x7d is string, not *string") ∧
    handleEvent (sampleWorld labelsWithPath [rule404]) startEvent =
      { calls := [Call.inspect "c1"], crashed := true } := by
  decide

/-! ## handleEvent -/

theorem Res.bind_eq_ok {α β : Type} (r : Res α) (f : α → Res β) (b : β)
    (h : r.bind f = Res.ok b) : ∃ a, r = Res.ok a ∧ f a = Res.ok b := by
  cases r with
  | ok a => exact ⟨a, rfl, h⟩
  | error msg => simp [Res.bind] at h
  | abort msg => simp [Res.bind] at h

theorem build_enabled (cfEnabled : Bool) (cfNetwork : String)
    (ruleData : List (String × Dyn)) (labels : Labels)
    (h : parseLabels.build cfEnabled cfNetwork ruleData = Res.ok labels) :
    labels.Enabled = cfEnabled := by
  unfold parseLabels.build at h
  obtain ⟨_, _, h⟩ := Res.bind_eq_ok _ _ _ h
  obtain ⟨_, _, h⟩ := Res.bind_eq_ok _ _ _ h
  obtain ⟨_, _, h⟩ := Res.bind_eq_ok _ _ _ h
  obtain ⟨_, _, h⟩ := Res.bind_eq_ok _ _ _ h
  obtain ⟨_, _, h⟩ := Res.bind_eq_ok _ _ _ h
  obtain ⟨_, _, h⟩ := Res.bind_eq_ok _ _ _ h
  obtain ⟨_, _, h⟩ := Res.bind_eq_ok _ _ _ h
  injection h with h
  rw [← h]

theorem parseLabels_ok_enabled (w : World) (cj : ContainerJSON) (calls : List Call)
    (labels : Labels) (h : parseLabels w cj = (calls, Res.ok labels)) :
    labels.Enabled = true := by
  unfold parseLabels at h
  simp only at h
  split at h
  · simp at h
  · rename_i hen
    simp only [Bool.not_eq_true, Bool.not_eq_false] at hen
    split at h
    · injection h with _ h
      rw [build_enabled _ _ _ _ h]
      simpa using hen
    · split at h
      · simp at h
      · injection h with _ h
        rw [build_enabled _ _ _ _ h]
        simpa using hen

theorem ParseContainerDetails_ok_enabled (w : World) (containerID : String)
    (calls : List Call) (cd : Container)
    (h : ParseContainerDetails w containerID = (calls, Res.ok cd)) :
    cd.Labels.Enabled = true := by
  unfold ParseContainerDetails at h
  split at h
  · simp at h
  · rename_i cj _
    simp only at h
    injection h with _ h
    cases hr : (parseLabels w cj).2 with
    | error msg => rw [hr] at h; simp at h
    | abort msg => rw [hr] at h; simp at h
    | ok labels =>
      rw [hr] at h
      simp only [Res.ok.injEq] at h
      rw [← h]
      exact parseLabels_ok_enabled w cj (parseLabels w cj).1 labels (by rw [← hr])

theorem reconcile_eq (w : World) (cd : Container) (cfg : TunnelConfig)
    (he : cd.Labels.Enabled = true) (hf : w.fetch = some cfg) :
    handleEvent.reconcile w cd =
      if cfg.Ingress.any (fun r => r.Service = handleEvent.serviceURL cd.Labels.Rules) then
        { calls := [Call.fetch (configEndpoint w)], crashed := false }
      else
        { calls := [Call.fetch (configEndpoint w)] ++
            (CreateRoute w cd.Labels.Rules.Subdomain cd.Labels.Rules.Domain
              cd.Labels.Rules.Host cd.Labels.Rules.Port cd.Labels.Rules.Path
              cd.Labels.Rules.EnableSocks5 (configEndpoint w)).1,
          crashed := false } := by
  simp only [handleEvent.reconcile, he, FetchTunnelConfig, hf, if_true]
  cases hany : cfg.Ingress.any
      (fun r => decide (r.Service = handleEvent.serviceURL cd.Labels.Rules)) <;> simp

theorem serviceURL_no_address (rules : Rule)
    (hsub : rules.Subdomain = "" ∨ rules.Domain = "")
    (hhost : rules.Host = "" ∨ rules.Port = "") :
    handleEvent.serviceURL rules = "" := by
  unfold handleEvent.serviceURL
  rw [if_neg (by tauto), if_neg (by tauto)]

theorem target_count (L : List IngressRule) (target : String) (hne : target ≠ "")
    (newIngress catchAll : IngressRule) (hn : newIngress.Hostname = target)
    (hc : catchAll.Hostname = "") (hno : ∀ r ∈ L, r.Hostname ≠ target) :
    (((L.filter (fun r => r.Hostname ≠ "") ++ [newIngress]) ++ [catchAll]).filter
      (fun r => r.Hostname = target)).length = 1 := by
  have h1 : (L.filter (fun r => decide (r.Hostname ≠ ""))).filter
      (fun r => decide (r.Hostname = target)) = [] := by
    rw [List.filter_eq_nil_iff]
    intro a ha
    simpa using hno a (List.mem_filter.mp ha).1
  have h2 : catchAll.Hostname ≠ target := by
    rw [hc]
    exact fun h => hne h.symm
  rw [List.filter_append, List.filter_append, h1]
  simp [List.filter_cons, hn, h2]

/-- C9, as stated, fails: for the container whose labels give an empty
subdomain and an empty host (neither addressing mode populated),
`handleEvent` fetches the tunnel configuration, calls `CreateRoute`, which
fetches again, and publishes a rule for the hostname `.example.com`. -/
theorem C9_no_address_contacts_remote :
    ParseContainerDetails (sampleWorld labelsNoAddress [rule404]) startEvent.ID =
      ([Call.inspect "c1"], Res.ok noAddressContainer) ∧
    (noAddressContainer.Labels.Rules.Subdomain = "" ∨
      noAddressContainer.Labels.Rules.Domain = "") ∧
    (noAddressContainer.Labels.Rules.Host = "" ∨
      noAddressContainer.Labels.Rules.Port = "") ∧
    handleEvent (sampleWorld labelsNoAddress [rule404]) startEvent =
      { calls :=
          [Call.inspect "c1", Call.fetch sampleEndpoint, Call.fetch sampleEndpoint,
           Call.put sampleEndpoint
             { Ingress :=
                 [{ Service := "http://:8080", Hostname := ".example.com",
                    OriginRequest := [] },
                  rule404],
               WarpRouting := false }],
        crashed := false } := by
  decide

/-- C9 amended: for a container-start event whose parsed rule has neither
addressing mode fully populated, `handleEvent` does not stop before the
remote API: it calls `FetchTunnelConfig`, and when that fetch succeeds it
looks for a fetched rule with an empty service and calls `CreateRoute`
exactly when there is none. -/
theorem C9_no_address_still_reconciles (w : World) (event : Message)
    (calls : List Call) (cd : Container)
    (hty : event.Type_ = "container") (hac : event.Action = "start")
    (hp : ParseContainerDetails w event.ID = (calls, Res.ok cd))
    (hsub : cd.Labels.Rules.Subdomain = "" ∨ cd.Labels.Rules.Domain = "")
    (hhost : cd.Labels.Rules.Host = "" ∨ cd.Labels.Rules.Port = "") :
    Call.fetch (configEndpoint w) ∈ (handleEvent w event).calls ∧
    ∀ cfg, w.fetch = some cfg →
      handleEvent w event =
        { calls := calls ++ ([Call.fetch (configEndpoint w)] ++
            if cfg.Ingress.any (fun r => r.Service = "") then []
            else (CreateRoute w cd.Labels.Rules.Subdomain cd.Labels.Rules.Domain
              cd.Labels.Rules.Host cd.Labels.Rules.Port cd.Labels.Rules.Path
              cd.Labels.Rules.EnableSocks5 (configEndpoint w)).1),
          crashed := false } := by
  have he := ParseContainerDetails_ok_enabled w event.ID calls cd hp
  have hs := serviceURL_no_address cd.Labels.Rules hsub hhost
  have hev : handleEvent w event =
      { calls := calls ++ (handleEvent.reconcile w cd).calls,
        crashed := (handleEvent.reconcile w cd).crashed } := by
    simp only [handleEvent, hty, hac, and_self, if_true, hp]
  constructor
  · rw [hev]
    apply List.mem_append_right
    cases hf : w.fetch with
    | none => simp [handleEvent.reconcile, he, FetchTunnelConfig, hf]
    | some cfg =>
      rw [reconcile_eq w cd cfg he hf]
      split <;> simp
  · intro cfg hf
    rw [hev, reconcile_eq w cd cfg he hf, hs]
    split <;> simp

/-- Instance of the amended C9 for the container with an empty subdomain and host. -/
theorem C9_no_address_still_reconciles_witness :
    (startEvent.Type_ = "container" ∧ startEvent.Action = "start" ∧
      ParseContainerDetails (sampleWorld labelsNoAddress [rule404]) startEvent.ID =
        ([Call.inspect "c1"], Res.ok noAddressContainer) ∧
      (noAddressContainer.Labels.Rules.Subdomain = "" ∨
        noAddressContainer.Labels.Rules.Domain = "") ∧
      (noAddressContainer.Labels.Rules.Host = "" ∨
        noAddressContainer.Labels.Rules.Port = "")) ∧
    (Call.fetch (configEndpoint (sampleWorld labelsNoAddress [rule404])) ∈
        (handleEvent (sampleWorld labelsNoAddress [rule404]) startEvent).calls ∧
    ∀ cfg, (sampleWorld labelsNoAddress [rule404]).fetch = some cfg →
      handleEvent (sampleWorld labelsNoAddress [rule404]) startEvent =
        { calls := [Call.inspect "c1"] ++
            ([Call.fetch (configEndpoint (sampleWorld labelsNoAddress [rule404]))] ++
            if cfg.Ingress.any (fun r => r.Service = "") then []
            else (CreateRoute (sampleWorld labelsNoAddress [rule404])
              noAddressContainer.Labels.Rules.Subdomain noAddressContainer.Labels.Rules.Domain
              noAddressContainer.Labels.Rules.Host noAddressContainer.Labels.Rules.Port
              noAddressContainer.Labels.Rules.Path
              noAddressContainer.Labels.Rules.EnableSocks5
              (configEndpoint (sampleWorld labelsNoAddress [rule404]))).1),
          crashed := false }) :=
  ⟨⟨by decide, by decide, by decide, by decide, by decide⟩,
    C9_no_address_still_reconciles (sampleWorld labelsNoAddress [rule404]) startEvent
      [Call.inspect "c1"] noAddressContainer (by decide) (by decide) (by decide)
      (by decide) (by decide)⟩

/-- C2: if a reconciliation of a container sends a `PUT` with payload
`payload` and the remote accepts it, then the remote configuration afterwards
is `payload`; reconciling the same container again against it sends no
`PUT` and does not panic (`CreateRoute` against it ends as already existing),
the remote configuration is still `payload` after the second run, and
`payload` has exactly one rule whose hostname is `subdomain.domain`. -/
theorem C2_reconcile_idempotent (w w1 : World) (cd : Container) (endpoint : String)
    (payload : TunnelConfig) (hok : w.putOK = true)
    (hput : Call.put endpoint payload ∈ (handleEvent.reconcile w cd).calls)
    (hw1 : w1 = w.afterCalls (handleEvent.reconcile w cd).calls) :
    w1.fetch = some payload ∧
    (∀ c ∈ (handleEvent.reconcile w1 cd).calls, c.isPut = false) ∧
    (handleEvent.reconcile w1 cd).crashed = false ∧
    (CreateRoute w1 cd.Labels.Rules.Subdomain cd.Labels.Rules.Domain
        cd.Labels.Rules.Host cd.Labels.Rules.Port cd.Labels.Rules.Path
        cd.Labels.Rules.EnableSocks5 (configEndpoint w1)).2 = RouteResult.alreadyExists ∧
    (w1.afterCalls (handleEvent.reconcile w1 cd).calls).fetch = some payload ∧
    (payload.Ingress.filter
      (fun r => r.Hostname = cd.Labels.Rules.Subdomain ++ "." ++ cd.Labels.Rules.Domain)).length
      = 1 := by
  cases he : cd.Labels.Enabled with
  | false => simp [handleEvent.reconcile, he] at hput
  | true =>
    cases hf : w.fetch with
    | none => simp [handleEvent.reconcile, he, FetchTunnelConfig, hf] at hput
    | some cfg =>
      rw [reconcile_eq w cd cfg he hf] at hput hw1
      split at hput
      · simp at hput
      · rename_i hany
        rw [if_neg hany] at hw1
        by_cases hex : ∃ r ∈ cfg.Ingress,
            r.Hostname = cd.Labels.Rules.Subdomain ++ "." ++ cd.Labels.Rules.Domain
        · rw [CreateRoute_exists w cfg _ _ _ _ _ _ _ hf hex] at hput
          simp at hput
        · have hno : ∀ r ∈ cfg.Ingress,
              r.Hostname ≠ cd.Labels.Rules.Subdomain ++ "." ++ cd.Labels.Rules.Domain :=
            fun r hr h => hex ⟨r, hr, h⟩
          rw [CreateRoute_publishes w cfg _ _ _ _ _ _ _ hf hno] at hput hw1
          simp only [List.mem_append, List.mem_singleton, List.mem_cons, List.mem_nil_iff,
            or_false, false_or, Call.put.injEq, reduceCtorEq] at hput
          obtain ⟨_, hpl⟩ := hput
          simp only [List.singleton_append, World.afterCalls, hok, if_true] at hw1
          rw [← hpl] at hw1
          have hf1 : w1.fetch = some payload := by rw [hw1]
          have hep : configEndpoint w1 = configEndpoint w := by rw [hw1]; rfl
          have hex1 : ∃ r ∈ payload.Ingress,
              r.Hostname = cd.Labels.Rules.Subdomain ++ "." ++ cd.Labels.Rules.Domain := by
            rw [hpl]
            exact ⟨{ Service := CreateRoute.serviceURL cd.Labels.Rules.Host
                       cd.Labels.Rules.Port cd.Labels.Rules.Path,
                     Hostname := cd.Labels.Rules.Subdomain ++ "." ++ cd.Labels.Rules.Domain,
                     OriginRequest := CreateRoute.originRequest cd.Labels.Rules.EnableSocks5 },
              by simp, rfl⟩
          have hcr := CreateRoute_exists w1 payload cd.Labels.Rules.Subdomain
            cd.Labels.Rules.Domain cd.Labels.Rules.Host cd.Labels.Rules.Port
            cd.Labels.Rules.Path cd.Labels.Rules.EnableSocks5 (configEndpoint w1) hf1 hex1
          have hrun := reconcile_eq w1 cd payload he hf1
          rw [hcr] at hrun
          refine ⟨hf1, ?_, ?_, ?_, ?_, ?_⟩
          · rw [hrun]
            split <;> simp [Call.isPut]
          · rw [hrun]
            split <;> rfl
          · rw [hcr]
          · rw [hrun]
            split <;> simpa [World.afterCalls] using hf1
          · rw [hpl]
            exact target_count cfg.Ingress _ (dotted_ne_empty _ _) _ _ rfl
              (resolveCatchAll_hostname _ (lastCatchAll_hostname _ _ rfl)) hno

/-- Instance of C2: the sample container reconciled against a fetched list with three empty-hostname rules. -/
theorem C2_reconcile_idempotent_witness :
    ((sampleWorld sampleLabels mixedIngress).putOK = true ∧
      Call.put sampleEndpoint
          { Ingress :=
              [{ Service := "http://10.0.0.9:80", Hostname := "old.example.com",
                 OriginRequest := [] },
               { Service := "http://10.0.0.7:3000", Hostname := "api.example.com",
                 OriginRequest := [("proxyType", JValue.str "socks")] },
               { Service := "http://10.0.0.5:8080", Hostname := "app.example.com",
                 OriginRequest := [] },
               { Service := "http_status:418", Hostname := "", OriginRequest := [] }],
            WarpRouting := false } ∈
        (handleEvent.reconcile (sampleWorld sampleLabels mixedIngress) sampleContainer).calls) ∧
    ∃ w1 payload,
      w1.fetch = some payload ∧
      (∀ c ∈ (handleEvent.reconcile w1 sampleContainer).calls, c.isPut = false) ∧
      (handleEvent.reconcile w1 sampleContainer).crashed = false ∧
      (CreateRoute w1 sampleContainer.Labels.Rules.Subdomain
          sampleContainer.Labels.Rules.Domain sampleContainer.Labels.Rules.Host
          sampleContainer.Labels.Rules.Port sampleContainer.Labels.Rules.Path
          sampleContainer.Labels.Rules.EnableSocks5 (configEndpoint w1)).2 =
        RouteResult.alreadyExists ∧
      (w1.afterCalls (handleEvent.reconcile w1 sampleContainer).calls).fetch = some payload ∧
      (payload.Ingress.filter
        (fun r => r.Hostname = sampleContainer.Labels.Rules.Subdomain ++ "." ++
          sampleContainer.Labels.Rules.Domain)).length = 1 :=
  ⟨⟨by decide, by decide⟩, _, _,
    C2_reconcile_idempotent (sampleWorld sampleLabels mixedIngress) _ sampleContainer
      sampleEndpoint
      { Ingress :=
          [{ Service := "http://10.0.0.9:80", Hostname := "old.example.com",
             OriginRequest := [] },
           { Service := "http://10.0.0.7:3000", Hostname := "api.example.com",
             OriginRequest := [("proxyType", JValue.str "socks")] },
           { Service := "http://10.0.0.5:8080", Hostname := "app.example.com",
             OriginRequest := [] },
           { Service := "http_status:418", Hostname := "", OriginRequest := [] }],
        WarpRouting := false }
      (by decide) (by decide) rfl⟩

end CfWatcher
